import Mathlib

/-!
Verification of `skyzh/mirror-clone` (Rust) against its specification.

Shallow embedding of the three source files:
  * `src/rsync.rs`              — subprocess-listing snapshot producer
  * `src/pypi.rs`               — index-crawl snapshot producer
  * `src/simple_diff_transfer.rs` — snapshot-diff transfer engine

Strings are modelled as `List Char` (`Str`).  Network fetches, the
subprocess line stream and its exit status, and the anchor-tag extractor
(the external `regex` crate) enter as explicit parameters/oracles; all
control flow around them is translated from the Rust source.  A Rust
panic is modelled as `none` in an `Option`-wrapped result.
-/

namespace MirrorClone

/-- Strings of the Rust source, modelled as lists of characters. -/
abbrev Str := List Char

/-- Modelled from the spec: the repository error type `crate::error::Error`
(its file is not under `src/`).  Constructors cover the variants the three
embedded files use: `Error::NoneError` (failed field split), a process
error with a message, a transport/HTTP error, and the distinguished
timeout error the timeout wrapper produces (spec §5/§7). -/
inductive Error where
  | noneError
  | processError (msg : Str)
  | httpError (msg : Str)
  | timeoutError
  deriving Repr, DecidableEq

/-! ## rsync.rs -/

/-- `Rsync` struct of `src/rsync.rs`. -/
structure Rsync where
  base : Str
  debug : Bool
  deriving Repr, DecidableEq

/-- Rust `str::split_once(' ')`: split at the first space, the space itself
belonging to neither part; `none` when the string has no space. -/
def splitOnceSpace : Str → Option (Str × Str)
  | [] => none
  | c :: rest =>
    if c = ' ' then some ([], rest)
    else match splitOnceSpace rest with
      | some (l, r) => some (c :: l, r)
      | none => none

/-- Rust `str::trim_start`: drop leading whitespace. -/
def trimStart (s : Str) : Str := s.dropWhile Char.isWhitespace

/-- `parse_rsync_output` from `src/rsync.rs` lines 19–28: four successive
`split_once(' ')` with `trim_start` between them; any failed split is
`Error::NoneError`.  Note there is no `trim_start` between the fourth
field and the filename. -/
def parse_rsync_output (line : Str) : Except Error (Str × Str × Str × Str × Str) :=
  match splitOnceSpace line with
  | none => .error .noneError
  | some (permission, rest) =>
    match splitOnceSpace (trimStart rest) with
    | none => .error .noneError
    | some (size, rest) =>
      match splitOnceSpace (trimStart rest) with
      | none => .error .noneError
      | some (date, rest) =>
        match splitOnceSpace (trimStart rest) with
        | none => .error .noneError
        | some (time, file) => .ok (permission, size, date, time, file)

/-- `a.startsWith b` for modelled strings (Rust `str::starts_with`). -/
def strStartsWith : Str → Str → Bool
  | _, [] => true
  | [], _ :: _ => false
  | a :: as, b :: bs => a = b && strStartsWith as bs

/-- The body of the rsync snapshot loop for one line (lines 70–76 of
`src/rsync.rs`): parse; on success keep the filename iff the permission
string starts with `"-rw"`; a parse error contributes nothing. -/
def keepLine (line : Str) : Option Str :=
  match parse_rsync_output line with
  | .ok (permission, _, _, _, file) =>
    if strStartsWith permission ['-', 'r', 'w'] then some file else none
  | .error _ => none

/-- The `while let` loop of `Rsync::snapshot` (lines 60–77): iterate the
line stream, counting lines; in debug mode stop before processing the
1001st line; collect kept filenames in order. -/
def rsyncLoop (debug : Bool) : List Str → Nat → List Str
  | [], _ => []
  | line :: rest, idx =>
    let idx' := idx + 1
    if debug ∧ idx' > 1000 then []
    else
      match keepLine line with
      | some file => file :: rsyncLoop debug rest idx'
      | none => rsyncLoop debug rest idx'

/-- `Rsync::snapshot` (lines 32–89 of `src/rsync.rs`), with the subprocess
modelled by its emitted stdout lines and its exit status.  `exitStatus` is
`.error e` when awaiting the child fails (`Error::ProcessError`), and
`.ok b` with `b = status.success()` otherwise.  After the line stream
ends, the exit status is joined on; a non-success status is a fatal
`ProcessError` even though lines were already collected. -/
def rsyncSnapshot (r : Rsync) (lines : List Str) (exitStatus : Except Error Bool) :
    Except Error (List Str) := do
  let snapshot := rsyncLoop r.debug lines 0
  let status ← exitStatus
  if status then .ok snapshot else
    .error (.processError ("exit code: ".data))

/-! ## pypi.rs -/

/-- `Pypi` struct of `src/pypi.rs`. -/
structure Pypi where
  simple_base : Str
  package_base : Str
  debug : Bool
  deriving Repr, DecidableEq

/-- Modelled from the spec: `SnapshotConfig` (from `crate::common`, not under
`src/`) carries the bounded-concurrency limit for index resolution (spec §3
"Configuration").  Concurrency does not change the collected result in this
embedding, so the field is carried but unused. -/
structure SnapshotConfig where
  concurrent_resolve : Nat
  deriving Repr, DecidableEq

/-- The canonicalization of one leaf URL (lines 97–99 of `src/pypi.rs`):
`url::Url::parse(&url).unwrap()` followed by the slice up to
`url::Position::AfterPath`.  Modelled as truncation at the first query or
fragment delimiter; the `url` crate's parse of the well-formed absolute
URLs built on the configured base is treated as the identity on the part
before the query/fragment, and its `unwrap` as non-failing. -/
def canonicalize (u : Str) : Str :=
  u.takeWhile (fun c => !(c = '?' || c = '#'))

/-- `package_base` with a trailing slash ensured (lines 120–124 of
`src/pypi.rs`). -/
def packageBaseSlash (p : Pypi) : Str :=
  if p.package_base.getLast? = some '/' then p.package_base
  else p.package_base ++ ['/']

/-- One child index's contribution to the crawl (lines 86–114 of
`src/pypi.rs`): fetch `{simple_base}/{url}`; on any error the
contribution is the empty list (the `Err` arm logs a warning and yields
`Ok(vec![])`); on success every anchor `(href, label)` of the page is
canonicalized to `({simple_base}/{url}{href}` cleaned`, label)`. -/
def childContribution (p : Pypi) (childFetch : Str → Except Error Str)
    (extract : Str → List (Str × Str)) (url : Str) : List (Str × Str) :=
  match childFetch (p.simple_base ++ '/' :: url) with
  | .error _ => []
  | .ok page =>
    (extract page).map fun hl =>
      (canonicalize (p.simple_base ++ '/' :: (url ++ hl.1)), hl.2)

/-- The filter/strip step of lines 126–137 of `src/pypi.rs`: keep a
canonical URL iff it starts with the slash-ended package base, as the
base-relative remainder; URLs outside the base are dropped (with a
warning). -/
def stripBase (base : Str) (url : Str) : Option Str :=
  if strStartsWith url base then some (url.drop base.length) else none

/-- The merged `(url, label)` leaf list of the crawl: child indices are
the anchors of the (possibly truncated) root index text, and each child's
canonicalized leaves are concatenated.  The per-child results are merged
in iteration order (completion order of `buffer_unordered` is
unspecified; the claims below only use membership). -/
def pypiLeaves (p : Pypi) (childFetch : Str → Except Error Str)
    (extract : Str → List (Str × Str)) (index : Str) : List (Str × Str) :=
  (extract index).flatMap fun un => childContribution p childFetch extract un.1

/-- `Pypi::snapshot` (lines 47–142 of `src/pypi.rs`).  Oracles: `rootFetch`
is the result of fetching `{simple_base}/` as text; `childFetch` maps a
child-index URL to its fetched text; `extract` is the anchor-tag matcher
`<a.*href="(.*?)".*>(.*?)</a>` of the external `regex` crate, applied to a
page text to give the `(href, label)` capture list.  The outer `Option` is
the panic channel: in debug mode the Rust code slices `index[..1000]`,
which panics when the root index text is shorter than 1000 (`none`);
otherwise the root text is truncated to its first 1000 characters.  A
root-fetch failure is fatal (`?`); per-child failures are absorbed by
`childContribution`, so the collected `packages` is always `Ok`. -/
def pypiSnapshot (p : Pypi) (rootFetch : Except Error Str)
    (childFetch : Str → Except Error Str) (extract : Str → List (Str × Str))
    (_config : SnapshotConfig) : Option (Except Error (List Str)) :=
  match rootFetch with
  | .error e => some (.error e)
  | .ok index =>
    if p.debug ∧ index.length < 1000 then none
    else
      let index := if p.debug then index.take 1000 else index
      let base := packageBaseSlash p
      some (.ok ((pypiLeaves p childFetch extract index).filterMap
        fun ul => stripBase base ul.1))

/-- Modelled from the spec: `TransferURL` (from `crate::common`, not under
`src/`), an absolute locator wrapping one string (spec §3 "Resolved
location"). -/
structure TransferURL where
  url : Str
  deriving Repr, DecidableEq

/-- Modelled from the spec: `Mission` (from `crate::common`, not under
`src/`), the per-phase context of client, progress and logger (spec §3);
purely observational, modelled by its structured task label. -/
structure Mission where
  taskLabel : Str
  deriving Repr, DecidableEq

/-- `Pypi::get_object` (lines 151–153 of `src/pypi.rs`):
`Ok(TransferURL(format!("{}/{}", self.package_base, snapshot.0)))`.  The
mission parameter is present but unused, as in the source. -/
def pypiGetObject (p : Pypi) (snapshot : Str) (_mission : Mission) :
    Except Error TransferURL :=
  .ok ⟨p.package_base ++ '/' :: snapshot⟩

/-! ## simple_diff_transfer.rs -/

/-- Modelled from the spec: the derived `Ord` of `SnapshotPath` (from
`crate::common`, not under `src/`) is the ordering of its underlying
string — "lexicographic byte ordering" (spec §3 "Key").  UTF-8 byte order
coincides with code-point order, so keys are compared as `List Char`
lexicographically.  This is the `le` used by `Vec::sort` in the plan
phase. -/
def keyLe : Str → Str → Bool
  | [], _ => true
  | _ :: _, [] => false
  | a :: as, b :: bs =>
    if a < b then true
    else if a = b then keyLe as bs
    else false

/-- `SimpleDiffTransferConfig` of `src/simple_diff_transfer.rs`. -/
structure SimpleDiffTransferConfig where
  progress : Bool
  snapshot_config : SnapshotConfig
  deriving Repr, DecidableEq

/-- The outcome recorded for one planned key by the transfer loop. -/
inductive ItemOutcome where
  /-- resolve and placement both succeeded -/
  | done
  /-- `get_object` failed or timed out; the outer handler logs
  "failed to fetch index" -/
  | getFailed (e : Error)
  /-- `put_object` failed or timed out; logged as "error while transfer" -/
  | putFailed (e : Error)
  deriving Repr, DecidableEq

/-- `map_snapshot` (lines 163–193 of `src/simple_diff_transfer.rs`) for one
key of the plan.  `get` and `put` are the per-key results of
`source.get_object` and `target.put_object`, each already wrapped by the
60-second timeout: a timed-out operation is the distinguished
`Error.timeoutError` (the timeout wrapper is not under `src/`; modelled
from spec §5: "exceeding the deadline … is treated identically to an
operation error").  A `get` failure aborts only this key's `func` (the
`?`), caught by the outer `if let Err`; a `put` failure is logged inside
`func`, which still returns `Ok`.  Either way the key's task completes. -/
def processKey {Item : Type} (get : Str → Except Error Item)
    (put : Str → Item → Except Error Unit) (k : Str) : ItemOutcome :=
  match get k with
  | .error e => .getFailed e
  | .ok item =>
    match put k item with
    | .error e => .putFailed e
    | .ok _ => .done

/-- `SimpleDiffTransfer::transfer` (lines 57–205 of
`src/simple_diff_transfer.rs`), from the snapshot phase on.  The two
snapshot results are inputs (the snapshot phase runs them concurrently;
either failure is fatal, source checked first).  Both snapshots are
sorted (`Vec::sort`, a stable merge sort, modelled by `List.mergeSort`
with `keyLe`); the sorted target snapshot is bound but never consulted
afterwards, exactly as in the source.  The transfer loop then maps
`map_snapshot` over the full sorted source snapshot with bounded
concurrency and returns `Ok(())` once every planned key completed; the
returned list is the run's observable trace: each planned key paired with
its recorded outcome, in plan order. -/
def sdtTransfer {Item : Type} (sourceSnap targetSnap : Except Error (List Str))
    (get : Str → Except Error Item) (put : Str → Item → Except Error Unit) :
    Except Error (List (Str × ItemOutcome)) :=
  match sourceSnap with
  | .error e => .error e
  | .ok source =>
    match targetSnap with
    | .error e => .error e
    | .ok target =>
      let sourceSorted := source.mergeSort keyLe
      let _targetSorted := target.mergeSort keyLe
      .ok (sourceSorted.map fun k => (k, processKey get put k))

/-! ## Order lemmas for the plan phase -/

/-- `keyLe` is total: any two keys compare one way or the other. -/
theorem keyLe_total : ∀ a b : Str, (keyLe a b || keyLe b a) = true
  | [], b => by simp [keyLe]
  | x :: xs, [] => by simp [keyLe]
  | x :: xs, y :: ys => by
    by_cases hxy : x < y
    · simp [keyLe, hxy]
    · by_cases hyx : y < x
      · simp [keyLe, hyx, hxy, ne_of_gt hyx]
      · have hxy' : x = y := le_antisymm (not_lt.mp hyx) (not_lt.mp hxy)
        subst hxy'
        simpa [keyLe, hxy] using keyLe_total xs ys

/-- `keyLe` is transitive. -/
theorem keyLe_trans : ∀ a b c : Str,
    keyLe a b = true → keyLe b c = true → keyLe a c = true
  | [], _, _, _, _ => by simp [keyLe]
  | x :: xs, [], _, h1, _ => by simp [keyLe] at h1
  | _ :: _, _ :: _, [], _, h2 => by simp [keyLe] at h2
  | x :: xs, y :: ys, z :: zs, h1, h2 => by
    by_cases hxy : x < y
    · by_cases hyz : y < z
      · simp [keyLe, lt_trans hxy hyz]
      · by_cases hyz' : y = z
        · subst hyz'; simp [keyLe, hxy]
        · simp [keyLe, hyz, hyz'] at h2
    · by_cases hxy' : x = y
      · subst hxy'
        simp only [keyLe, lt_irrefl, if_false, if_pos rfl, if_true] at h1
        by_cases hyz : x < z
        · simp [keyLe, hyz]
        · by_cases hyz' : x = z
          · subst hyz'
            simp only [keyLe, lt_irrefl, if_false, if_pos rfl, if_true] at h2 ⊢
            exact keyLe_trans xs ys zs h1 h2
          · simp [keyLe, hyz, hyz'] at h2
      · simp [keyLe, hxy, hxy'] at h1

/-- Mapping a list to key/outcome pairs and projecting the keys back is
the identity. -/
theorem map_fst_map_pair {β : Type} (f : Str → β) (l : List Str) :
    (l.map (fun k => (k, f k))).map Prod.fst = l := by
  induction l with
  | nil => rfl
  | cons x xs ih => simp [ih]

/-! ## Claims C1, C2 (transfer engine) and C10 (`Pypi::get_object`) -/

/-- Claim C1: for every pair of successfully produced snapshots, the
transfer plan executed by `SimpleDiffTransfer::transfer` is exactly the
source snapshot sorted lexicographically by key (a permutation of the
source, sorted under `keyLe`), each planned key occurrence is attempted
exactly once (occurrence counts agree with the source snapshot), and the
contents of the target snapshot do not affect which keys are planned or
attempted. -/
theorem claim_C1 {Item : Type} (source target : List Str)
    (get : Str → Except Error Item) (put : Str → Item → Except Error Unit) :
    ∃ trace, sdtTransfer (.ok source) (.ok target) get put = .ok trace
      ∧ trace.map Prod.fst = source.mergeSort keyLe
      ∧ (trace.map Prod.fst).Perm source
      ∧ (trace.map Prod.fst).Pairwise (fun a b => keyLe a b = true)
      ∧ (∀ k, (trace.map Prod.fst).count k = source.count k)
      ∧ ∀ target' : List Str,
          Except.map (List.map Prod.fst)
              (sdtTransfer (.ok source) (.ok target') get put)
            = .ok (source.mergeSort keyLe) := by
  refine ⟨(source.mergeSort keyLe).map (fun k => (k, processKey get put k)),
    rfl, map_fst_map_pair _ _, ?_, ?_, ?_, ?_⟩
  · rw [map_fst_map_pair]
    exact List.mergeSort_perm source keyLe
  · rw [map_fst_map_pair]
    exact List.sorted_mergeSort keyLe_trans keyLe_total source
  · intro k
    have hperm : ((source.mergeSort keyLe).map
        (fun k => (k, processKey get put k))).map Prod.fst |>.Perm source := by
      rw [map_fst_map_pair]
      exact List.mergeSort_perm source keyLe
    exact hperm.countP_eq (· == k)
  · intro target'
    exact congrArg Except.ok
      (map_fst_map_pair (processKey get put) (source.mergeSort keyLe))

/-- Claim C2: for every key in the transfer plan, a failure or timeout of
`get_object` or `put_object` is recorded per key (the logged warning) and
does not fail the run: `transfer` still returns `Ok`, every planned key is
attempted (each source key appears in the trace), and the whole plan is
traversed regardless of which keys fail. -/
theorem claim_C2 {Item : Type} (source target : List Str)
    (get : Str → Except Error Item) (put : Str → Item → Except Error Unit) :
    ∃ trace, sdtTransfer (.ok source) (.ok target) get put = .ok trace
      ∧ trace.map Prod.fst = source.mergeSort keyLe
      ∧ (∀ k ∈ source, k ∈ trace.map Prod.fst)
      ∧ (∀ ko ∈ trace, ko.2 = processKey get put ko.1)
      ∧ (∀ k e, get k = .error e → processKey get put k = .getFailed e)
      ∧ ∀ k item e, get k = .ok item → put k item = .error e →
          processKey get put k = .putFailed e := by
  refine ⟨(source.mergeSort keyLe).map (fun k => (k, processKey get put k)),
    rfl, map_fst_map_pair _ _, ?_, ?_, ?_, ?_⟩
  · intro k hk
    have hperm : (source.mergeSort keyLe).Perm source := List.mergeSort_perm source keyLe
    rw [map_fst_map_pair]
    exact (hperm.mem_iff).mpr hk
  · intro ko hko
    rcases List.mem_map.mp hko with ⟨k, _, rfl⟩
    rfl
  · intro k e hk
    simp [processKey, hk]
  · intro k item e hget hput
    simp [processKey, hget, hput]

/-- Claim C2 witness: the theorem applied at a concrete two-key source
snapshot whose `get` always times out and whose `put` always fails. -/
theorem claim_C2_witness :
    ∃ trace, @sdtTransfer Unit (.ok [(['b']), (['a'])]) (.ok [(['a'])])
        (fun _ => .error .timeoutError) (fun _ _ => .error .noneError) = .ok trace
      ∧ trace.map Prod.fst = ([(['b']), (['a'])] : List Str).mergeSort keyLe
      ∧ (∀ k ∈ ([(['b']), (['a'])] : List Str), k ∈ trace.map Prod.fst)
      ∧ (∀ ko ∈ trace, ko.2 = @processKey Unit (fun _ => .error .timeoutError)
          (fun _ _ => .error .noneError) ko.1)
      ∧ (∀ (k : Str) (e : Error),
          (Except.error Error.timeoutError : Except Error Unit) = Except.error e →
          @processKey Unit (fun _ => .error .timeoutError) (fun _ _ => .error .noneError) k
            = .getFailed e)
      ∧ ∀ (k : Str) (item : Unit) (e : Error),
          (Except.error Error.timeoutError : Except Error Unit) = Except.ok item →
          (Except.error Error.noneError : Except Error Unit) = Except.error e →
          @processKey Unit (fun _ => .error .timeoutError) (fun _ _ => .error .noneError) k
            = .putFailed e :=
  claim_C2 [(['b']), (['a'])] [(['a'])] (fun _ => .error .timeoutError)
    (fun _ _ => .error .noneError)

/-- Claim C10: `Pypi::get_object` is total and deterministic — for every
key and mission it returns `Ok` of the `TransferURL` made of the
configured package base, a slash, and the key, and its value is
independent of the mission. -/
theorem claim_C10 (p : Pypi) (k : Str) (m m' : Mission) :
    pypiGetObject p k m = .ok ⟨p.package_base ++ '/' :: k⟩
      ∧ pypiGetObject p k m = pypiGetObject p k m' :=
  ⟨rfl, rfl⟩

/-! ## Lemmas about the rsync listing parser and scan loop -/

/-- Splitting a string built as `a ++ ' ' :: b` with no space in `a`
recovers `(a, b)`. -/
theorem splitOnceSpace_append : ∀ (a b : Str), ' ' ∉ a →
    splitOnceSpace (a ++ ' ' :: b) = some (a, b)
  | [], b, _ => by simp [splitOnceSpace]
  | c :: cs, b, h => by
    have hc : ¬c = ' ' := fun hx => h (hx ▸ List.mem_cons_self c cs)
    have ih := splitOnceSpace_append cs b (fun hm => h (List.mem_cons_of_mem c hm))
    simp [splitOnceSpace, hc, ih]

/-- A successful split decomposes the string, and the first part is
space-free. -/
theorem splitOnceSpace_eq_some : ∀ (s a b : Str),
    splitOnceSpace s = some (a, b) → s = a ++ ' ' :: b ∧ ' ' ∉ a
  | [], a, b, h => by simp [splitOnceSpace] at h
  | c :: cs, a, b, h => by
    by_cases hc : c = ' '
    · subst hc
      simp [splitOnceSpace] at h
      obtain ⟨rfl, rfl⟩ := h
      simp
    · simp only [splitOnceSpace, if_neg hc] at h
      rcases hsp : splitOnceSpace cs with _ | ⟨l, r⟩
      · rw [hsp] at h; simp at h
      · rw [hsp] at h
        simp at h
        obtain ⟨rfl, rfl⟩ := h
        obtain ⟨hcs, hl⟩ := splitOnceSpace_eq_some cs l r hsp
        subst hcs
        exact ⟨rfl, by simp [List.mem_cons, hl, Ne.symm hc]⟩

/-- `trim_start` never increases the number of spaces. -/
theorem trimStart_count_le (s : Str) : (trimStart s).count (' ') ≤ s.count (' ') :=
  (List.dropWhile_sublist _).count_le _

/-- `trim_start` is the identity on a string starting with a nonempty
whitespace-free block. -/
theorem trimStart_append_of_ne (a b : Str) (ha : a ≠ [])
    (hw : ∀ c ∈ a, c.isWhitespace = false) : trimStart (a ++ b) = a ++ b := by
  cases a with
  | nil => exact absurd rfl ha
  | cons c cs =>
    simp [trimStart, List.dropWhile_cons, hw c (List.mem_cons_self c cs)]

/-- A successful parse of a listing line needs at least four spaces in the
line. -/
theorem parse_ok_count (line : Str) (out : Str × Str × Str × Str × Str)
    (h : parse_rsync_output line = .ok out) : 4 ≤ line.count (' ') := by
  rcases h1 : splitOnceSpace line with _ | ⟨p, r0⟩
  · simp [parse_rsync_output, h1] at h
  rcases h2 : splitOnceSpace (trimStart r0) with _ | ⟨s, r1⟩
  · simp [parse_rsync_output, h1, h2] at h
  rcases h3 : splitOnceSpace (trimStart r1) with _ | ⟨d, r2⟩
  · simp [parse_rsync_output, h1, h2, h3] at h
  rcases h4 : splitOnceSpace (trimStart r2) with _ | ⟨t, f⟩
  · simp [parse_rsync_output, h1, h2, h3, h4] at h
  obtain ⟨e1, -⟩ := splitOnceSpace_eq_some _ _ _ h1
  obtain ⟨e2, -⟩ := splitOnceSpace_eq_some _ _ _ h2
  obtain ⟨e3, -⟩ := splitOnceSpace_eq_some _ _ _ h3
  obtain ⟨e4, -⟩ := splitOnceSpace_eq_some _ _ _ h4
  have c1 : line.count (' ') = p.count (' ') + (r0.count (' ') + 1) := by
    rw [e1]; simp [List.count_append, List.count_cons_self]
  have c2 : (trimStart r0).count (' ') = s.count (' ') + (r1.count (' ') + 1) := by
    rw [e2]; simp [List.count_append, List.count_cons_self]
  have c3 : (trimStart r1).count (' ') = d.count (' ') + (r2.count (' ') + 1) := by
    rw [e3]; simp [List.count_append, List.count_cons_self]
  have c4 : (trimStart r2).count (' ') = t.count (' ') + (f.count (' ') + 1) := by
    rw [e4]; simp [List.count_append, List.count_cons_self]
  have t1 := trimStart_count_le r0
  have t2 := trimStart_count_le r1
  have t3 := trimStart_count_le r2
  omega

/-- The parser either succeeds or fails with `Error::NoneError`. -/
theorem parse_rsync_cases (line : Str) :
    (∃ out, parse_rsync_output line = .ok out)
      ∨ parse_rsync_output line = .error .noneError := by
  rcases h1 : splitOnceSpace line with _ | ⟨p, r0⟩
  · right; simp [parse_rsync_output, h1]
  rcases h2 : splitOnceSpace (trimStart r0) with _ | ⟨s, r1⟩
  · right; simp [parse_rsync_output, h1, h2]
  rcases h3 : splitOnceSpace (trimStart r1) with _ | ⟨d, r2⟩
  · right; simp [parse_rsync_output, h1, h2, h3]
  rcases h4 : splitOnceSpace (trimStart r2) with _ | ⟨t, f⟩
  · right; simp [parse_rsync_output, h1, h2, h3, h4]
  · left
    exact ⟨(p, s, d, t, f), by simp [parse_rsync_output, h1, h2, h3, h4]⟩

/-- With the debug cap off, the scan loop keeps exactly the lines
`keepLine` keeps, regardless of the running line counter. -/
theorem rsyncLoop_false : ∀ (lines : List Str) (idx : Nat),
    rsyncLoop false lines idx = lines.filterMap keepLine
  | [], _ => rfl
  | line :: rest, idx => by
    rcases h : keepLine line with _ | f <;>
      simp [rsyncLoop, h, List.filterMap_cons, rsyncLoop_false rest (idx + 1)]

/-! ## Claims C4, C5, C6 (rsync listing scan) -/

/-- Claim C4: after the line stream ends, the scan joins on the child
process's exit status; a non-success status — or a failure while awaiting
the child — makes the whole snapshot return an error, for every list of
lines already parsed and collected. -/
theorem claim_C4 (r : Rsync) (lines : List Str) :
    rsyncSnapshot r lines (.ok false)
        = .error (.processError ("exit code: ".data))
      ∧ ∀ e : Error, rsyncSnapshot r lines (.error e) = .error e :=
  ⟨rfl, fun _ => rfl⟩

/-- Claim C5 counterexample: the read-only regular file
`-r--r--r-- 1024 2020/01/01 00:00:00 a.txt` parses successfully, its
permission string begins with the regular-file marker `'-'`, yet the scan
discards it (the code tests `starts_with("-rw")`, not `starts_with('-')`),
so "kept iff the permission begins with `'-'`" is false on the code. -/
theorem claim_C5_counterexample :
    parse_rsync_output ("-r--r--r-- 1024 2020/01/01 00:00:00 a.txt".data)
        = .ok (("-r--r--r--".data), ("1024".data), ("2020/01/01".data),
            ("00:00:00".data), ("a.txt".data))
      ∧ strStartsWith ("-r--r--r--".data) ['-'] = true
      ∧ rsyncSnapshot ⟨[], false⟩
          [("-r--r--r-- 1024 2020/01/01 00:00:00 a.txt".data)] (.ok true)
          = .ok [] := by
  refine ⟨by rfl, by decide, by rfl⟩

/-- Claim C5 (amended): for every successfully parsed listing line, the
entry is kept as a snapshot key if and only if its permission string
begins with `"-rw"`; all other entries (directories, symlinks, special
files, and regular files without owner read-write bits) are discarded. -/
theorem claim_C5 (r : Rsync) (lines : List Str) (h : r.debug = false) :
    rsyncSnapshot r lines (.ok true) = .ok (lines.filterMap keepLine)
      ∧ ∀ line permission size date time file,
          parse_rsync_output line = .ok (permission, size, date, time, file) →
          (keepLine line = some file ↔
            strStartsWith permission (['-', 'r', 'w']) = true) := by
  constructor
  · show Except.ok (rsyncLoop r.debug lines 0) = _
    rw [h, rsyncLoop_false]
  · intro line permission size date time file hp
    by_cases hs : strStartsWith permission (['-', 'r', 'w']) = true <;>
      simp [keepLine, hp, hs]

/-- Claim C5 witness: the amended theorem at a concrete scan of one kept
and one discarded line. -/
theorem claim_C5_witness :
    rsyncSnapshot ⟨[], false⟩
        [("-rw-r--r-- 1 2 3 f".data), ("-r--r--r-- 1 2 3 g".data)] (.ok true)
        = .ok ([("-rw-r--r-- 1 2 3 f".data),
            ("-r--r--r-- 1 2 3 g".data)].filterMap keepLine)
      ∧ ∀ line permission size date time file,
          parse_rsync_output line = .ok (permission, size, date, time, file) →
          (keepLine line = some file ↔
            strStartsWith permission (['-', 'r', 'w']) = true) :=
  claim_C5 ⟨[], false⟩
    [("-rw-r--r-- 1 2 3 f".data), ("-r--r--r-- 1 2 3 g".data)] rfl

/-- Claim C6: (1) every listing line built of five space-separated fields,
the first four nonempty and whitespace-free and the filename arbitrary
(embedded spaces preserved), parses back to exactly those five fields;
(2) a line with fewer than four spaces — one that cannot be split into
all five fields — parses to `Error::NoneError`; (3) such a line is
skipped by the scan without becoming fatal: the snapshot equals the
snapshot of the remaining lines. -/
theorem claim_C6 :
    (∀ f1 f2 f3 f4 f5 : Str, f1 ≠ [] → f2 ≠ [] → f3 ≠ [] → f4 ≠ [] →
      (∀ c ∈ f1, c.isWhitespace = false) → (∀ c ∈ f2, c.isWhitespace = false) →
      (∀ c ∈ f3, c.isWhitespace = false) → (∀ c ∈ f4, c.isWhitespace = false) →
      parse_rsync_output
          (f1 ++ ' ' :: (f2 ++ ' ' :: (f3 ++ ' ' :: (f4 ++ ' ' :: f5))))
        = .ok (f1, f2, f3, f4, f5))
    ∧ (∀ line : Str, line.count (' ') < 4 →
        parse_rsync_output line = .error .noneError)
    ∧ ∀ (r : Rsync) (lines : List Str) (line : Str), r.debug = false →
        parse_rsync_output line = .error .noneError →
        rsyncSnapshot r (line :: lines) (.ok true)
          = rsyncSnapshot r lines (.ok true) := by
  refine ⟨?_, ?_, ?_⟩
  · intro f1 f2 f3 f4 f5 h1 h2 h3 h4 w1 w2 w3 w4
    have n1 : ' ' ∉ f1 := fun hm => by simpa using w1 (' ') hm
    have n2 : ' ' ∉ f2 := fun hm => by simpa using w2 (' ') hm
    have n3 : ' ' ∉ f3 := fun hm => by simpa using w3 (' ') hm
    have n4 : ' ' ∉ f4 := fun hm => by simpa using w4 (' ') hm
    simp only [parse_rsync_output,
      splitOnceSpace_append f1 _ n1, trimStart_append_of_ne f2 _ h2 w2,
      splitOnceSpace_append f2 _ n2, trimStart_append_of_ne f3 _ h3 w3,
      splitOnceSpace_append f3 _ n3, trimStart_append_of_ne f4 _ h4 w4,
      splitOnceSpace_append f4 _ n4]
  · intro line hcount
    rcases parse_rsync_cases line with ⟨out, hok⟩ | herr
    · exact absurd (parse_ok_count line out hok) (by omega)
    · exact herr
  · intro r lines line hdbg herr
    have hk : keepLine line = none := by simp [keepLine, herr]
    show Except.ok (rsyncLoop r.debug (line :: lines) 0)
        = Except.ok (rsyncLoop r.debug lines 0)
    rw [hdbg, rsyncLoop_false, rsyncLoop_false, List.filterMap_cons, hk]

/-- Claim C6 witness: the theorem applied to the concrete line
`-rw 10 2020/01/01 00:00 a b.txt`, to the malformed line `a b c`, and to
a scan skipping the unparseable line `x`. -/
theorem claim_C6_witness :
    parse_rsync_output
        (("-rw".data) ++ ' ' :: (("10".data) ++ ' ' :: (("2020/01/01".data)
          ++ ' ' :: (("00:00".data) ++ ' ' :: ("a b.txt".data)))))
      = .ok (("-rw".data), ("10".data), ("2020/01/01".data), ("00:00".data),
          ("a b.txt".data))
    ∧ parse_rsync_output ("a b c".data) = .error .noneError
    ∧ rsyncSnapshot ⟨[], false⟩ [("x".data), ("-rw-r--r-- 1 2 3 f".data)] (.ok true)
        = rsyncSnapshot ⟨[], false⟩ [("-rw-r--r-- 1 2 3 f".data)] (.ok true) :=
  ⟨claim_C6.1 ("-rw".data) ("10".data) ("2020/01/01".data) ("00:00".data)
      ("a b.txt".data) (by decide) (by decide) (by decide) (by decide)
      (by decide) (by decide) (by decide) (by decide),
    claim_C6.2.1 ("a b c".data) (by decide),
    claim_C6.2.2 ⟨[], false⟩ [("-rw-r--r-- 1 2 3 f".data)] ("x".data) rfl
      (by rfl)⟩

/-! ## Lemmas about canonicalization and the index crawl -/

/-- Every character of a canonicalized URL is neither a query nor a
fragment delimiter. -/
theorem canonicalize_mem_ne (s : Str) :
    ∀ c ∈ canonicalize s, c ≠ '?' ∧ c ≠ '#' := by
  intro c hc
  have := List.mem_takeWhile_imp hc
  simpa using this

/-- Canonicalization is the identity on strings free of query/fragment
delimiters. -/
theorem canonicalize_eq_self (u : Str) (h : ∀ c ∈ u, c ≠ '?' ∧ c ≠ '#') :
    canonicalize u = u := by
  apply List.takeWhile_eq_self_iff.mpr
  intro c hc
  simpa using h c hc

/-- Every URL in the merged leaf list is the canonicalization of some
string. -/
theorem pypiLeaves_canonical (p : Pypi) (childFetch : Str → Except Error Str)
    (extract : Str → List (Str × Str)) (index : Str) (ul : Str × Str)
    (hul : ul ∈ pypiLeaves p childFetch extract index) :
    ∃ s, ul.1 = canonicalize s := by
  obtain ⟨un, -, hmem⟩ := List.mem_flatMap.mp hul
  unfold childContribution at hmem
  rcases hcf : childFetch (p.simple_base ++ '/' :: un.1) with e | page
  · rw [hcf] at hmem; simp at hmem
  · rw [hcf] at hmem
    obtain ⟨hl, -, heq⟩ := List.mem_map.mp hmem
    exact ⟨_, congrArg Prod.fst heq.symm⟩

/-! ## Claims C3, C7, C8, C9 (index-crawl snapshot producer) -/

/-- Claim C3: with the debug flag off, if fetching one child-index page
always fails, that child's contribution to the snapshot is the empty
list, while the overall snapshot still completes successfully and
contains every key contributed by every other (successful) child; no
single child fetch failure aborts the crawl. -/
theorem claim_C3 (p : Pypi) (rootText : Str)
    (childFetch : Str → Except Error Str) (extract : Str → List (Str × Str))
    (cfg : SnapshotConfig) (bad : Str × Str) (e : Error)
    (hdbg : p.debug = false)
    (_hbadmem : bad ∈ extract rootText)
    (hbad : childFetch (p.simple_base ++ '/' :: bad.1) = .error e) :
    ∃ keys, pypiSnapshot p (.ok rootText) childFetch extract cfg
        = some (.ok keys)
      ∧ childContribution p childFetch extract bad.1 = []
      ∧ ∀ un ∈ extract rootText,
          ∀ ul ∈ childContribution p childFetch extract un.1,
          ∀ k, stripBase (packageBaseSlash p) ul.1 = some k → k ∈ keys := by
  refine ⟨(pypiLeaves p childFetch extract rootText).filterMap
      (fun ul => stripBase (packageBaseSlash p) ul.1), ?_, ?_, ?_⟩
  · simp [pypiSnapshot, hdbg]
  · simp [childContribution, hbad]
  · intro un hun ul hul k hk
    exact List.mem_filterMap.mpr ⟨ul, List.mem_flatMap.mpr ⟨un, hun, hul⟩, hk⟩

/-- Claim C3 witness: a crawl with two children `a` and `b` where fetching
child `a` times out; the snapshot still completes and keeps child `b`'s
leaf (its checksum suffix stripped). -/
theorem claim_C3_witness :
    ∃ keys, pypiSnapshot ⟨("http://s".data), ("http://s".data), false⟩
        (.ok ("R".data))
        (fun u => if u = ("http://s/a".data)
          then .error .timeoutError else .ok ("P".data))
        (fun t => if t = ("R".data)
          then [(("a".data), ("A".data)), (("b".data), ("B".data))]
          else [(("x?md5=1".data), ("X".data))]) ⟨16⟩
        = some (.ok keys)
      ∧ childContribution ⟨("http://s".data), ("http://s".data), false⟩
          (fun u => if u = ("http://s/a".data)
            then .error .timeoutError else .ok ("P".data))
          (fun t => if t = ("R".data)
            then [(("a".data), ("A".data)), (("b".data), ("B".data))]
            else [(("x?md5=1".data), ("X".data))]) ("a".data) = []
      ∧ ∀ un ∈ (fun t => if t = ("R".data)
            then [(("a".data), ("A".data)), (("b".data), ("B".data))]
            else [(("x?md5=1".data), ("X".data))]) ("R".data),
          ∀ ul ∈ childContribution ⟨("http://s".data), ("http://s".data), false⟩
            (fun u => if u = ("http://s/a".data)
              then .error .timeoutError else .ok ("P".data))
            (fun t => if t = ("R".data)
              then [(("a".data), ("A".data)), (("b".data), ("B".data))]
              else [(("x?md5=1".data), ("X".data))]) un.1,
          ∀ k, stripBase (packageBaseSlash
              ⟨("http://s".data), ("http://s".data), false⟩) ul.1 = some k →
            k ∈ keys :=
  claim_C3 ⟨("http://s".data), ("http://s".data), false⟩ ("R".data)
    (fun u => if u = ("http://s/a".data)
      then .error .timeoutError else .ok ("P".data))
    (fun t => if t = ("R".data)
      then [(("a".data), ("A".data)), (("b".data), ("B".data))]
      else [(("x?md5=1".data), ("X".data))]) ⟨16⟩
    (("a".data), ("A".data)) .timeoutError rfl (by decide) (by rfl)

/-- Claim C7: evaluation of the code at the failing input.  With the debug
flag set and a successfully fetched root index text shorter than 1000
bytes (here: the empty page), `Pypi::snapshot` panics on the byte slice
`index[..1000]` instead of returning normally — the crawl does not
complete for every possible root index text, contradicting the struct's
own documentation ("only first 1000 packages will be selected"). -/
theorem claim_C7 :
    pypiSnapshot ⟨("s".data), ("p".data), true⟩ (.ok [])
      (fun _ => .error .timeoutError) (fun _ => []) ⟨16⟩ = none := by
  rfl

/-- Claim C8: every key of a successfully returned index-crawl snapshot is
canonical: the snapshot is exactly the base-filtered leaf list, and each
key is free of query/fragment delimiters and is the base-relative
remainder of a canonical leaf URL (a fixed point of `canonicalize`) that
starts with the slash-ended package base; leaves outside the base are
never inserted. -/
theorem claim_C8 (p : Pypi) (rootFetch : Except Error Str)
    (childFetch : Str → Except Error Str) (extract : Str → List (Str × Str))
    (cfg : SnapshotConfig) (keys : List Str)
    (h : pypiSnapshot p rootFetch childFetch extract cfg = some (.ok keys)) :
    ∃ index, keys = (pypiLeaves p childFetch extract index).filterMap
        (fun ul => stripBase (packageBaseSlash p) ul.1)
      ∧ ∀ k ∈ keys, ('?' ∉ k ∧ '#' ∉ k)
        ∧ ∃ ul ∈ pypiLeaves p childFetch extract index,
            strStartsWith ul.1 (packageBaseSlash p) = true
            ∧ k = ul.1.drop (packageBaseSlash p).length
            ∧ canonicalize ul.1 = ul.1 := by
  rcases rootFetch with e | index0
  · simp [pypiSnapshot] at h
  by_cases hdbg : p.debug ∧ index0.length < 1000
  · simp [pypiSnapshot, hdbg] at h
  have h' : keys = (pypiLeaves p childFetch extract
      (if p.debug then index0.take 1000 else index0)).filterMap
      (fun ul => stripBase (packageBaseSlash p) ul.1) := by
    simp only [pypiSnapshot, if_neg hdbg, Option.some.injEq] at h
    exact (Except.ok.inj h).symm
  refine ⟨if p.debug then index0.take 1000 else index0, h', ?_⟩
  intro k hk
  rw [h'] at hk
  obtain ⟨ul, hul, hstrip⟩ := List.mem_filterMap.mp hk
  have hsw : strStartsWith ul.1 (packageBaseSlash p) = true := by
    by_cases hs : strStartsWith ul.1 (packageBaseSlash p) = true
    · exact hs
    · simp [stripBase, hs] at hstrip
  have hkeq : k = ul.1.drop (packageBaseSlash p).length := by
    simp [stripBase, hsw] at hstrip
    exact hstrip.symm
  obtain ⟨s, hcanon⟩ := pypiLeaves_canonical p childFetch extract _ ul hul
  have hchars : ∀ c ∈ ul.1, c ≠ '?' ∧ c ≠ '#' := by
    rw [hcanon]; exact canonicalize_mem_ne s
  refine ⟨⟨?_, ?_⟩, ul, hul, hsw, hkeq, canonicalize_eq_self ul.1 hchars⟩
  · intro hq
    rw [hkeq] at hq
    exact (hchars '?' (List.mem_of_mem_drop hq)).1 rfl
  · intro hq
    rw [hkeq] at hq
    exact (hchars '#' (List.mem_of_mem_drop hq)).2 rfl

/-- Claim C8 witness: the theorem applied to the concrete successful crawl
of the C3 witness. -/
theorem claim_C8_witness :
    ∃ index, (["bx".data] : List Str)
        = (pypiLeaves ⟨("http://s".data), ("http://s".data), false⟩
            (fun u => if u = ("http://s/a".data)
              then .error .timeoutError else .ok ("P".data))
            (fun t => if t = ("R".data)
              then [(("a".data), ("A".data)), (("b".data), ("B".data))]
              else [(("x?md5=1".data), ("X".data))]) index).filterMap
          (fun ul => stripBase (packageBaseSlash
            ⟨("http://s".data), ("http://s".data), false⟩) ul.1)
      ∧ ∀ k ∈ (["bx".data] : List Str), ('?' ∉ k ∧ '#' ∉ k)
        ∧ ∃ ul ∈ pypiLeaves ⟨("http://s".data), ("http://s".data), false⟩
            (fun u => if u = ("http://s/a".data)
              then .error .timeoutError else .ok ("P".data))
            (fun t => if t = ("R".data)
              then [(("a".data), ("A".data)), (("b".data), ("B".data))]
              else [(("x?md5=1".data), ("X".data))]) index,
            strStartsWith ul.1 (packageBaseSlash
              ⟨("http://s".data), ("http://s".data), false⟩) = true
            ∧ k = ul.1.drop (packageBaseSlash
                ⟨("http://s".data), ("http://s".data), false⟩).length
            ∧ canonicalize ul.1 = ul.1 :=
  claim_C8 ⟨("http://s".data), ("http://s".data), false⟩ (.ok ("R".data))
    (fun u => if u = ("http://s/a".data)
      then .error .timeoutError else .ok ("P".data))
    (fun t => if t = ("R".data)
      then [(("a".data), ("A".data)), (("b".data), ("B".data))]
      else [(("x?md5=1".data), ("X".data))]) ⟨16⟩ ["bx".data] (by rfl)

/-- Claim C9: the canonicalization step is idempotent — it returns any
already-canonical URL (one with no query or fragment delimiter)
unchanged, and applying it twice equals applying it once. -/
theorem claim_C9 :
    (∀ u : Str, '?' ∉ u → '#' ∉ u → canonicalize u = u)
    ∧ ∀ u : Str, canonicalize (canonicalize u) = canonicalize u := by
  constructor
  · intro u hq hf
    exact canonicalize_eq_self u fun c hc =>
      ⟨fun h => hq (h ▸ hc), fun h => hf (h ▸ hc)⟩
  · intro u
    exact canonicalize_eq_self _ (canonicalize_mem_ne u)

/-- Claim C9 witness: an already-canonical URL is returned unchanged, and
a URL with a checksum fragment canonicalizes idempotently. -/
theorem claim_C9_witness :
    canonicalize ("http://a/b-1.0.tar.gz".data) = ("http://a/b-1.0.tar.gz".data)
    ∧ canonicalize (canonicalize ("http://a/b.tar.gz#sha256=12".data))
        = canonicalize ("http://a/b.tar.gz#sha256=12".data) :=
  ⟨claim_C9.1 ("http://a/b-1.0.tar.gz".data) (by decide) (by decide),
    claim_C9.2 ("http://a/b.tar.gz#sha256=12".data)⟩

end MirrorClone
